import Mathlib

/-
  Verification of the window-fetch request execution pipeline.

  Shallow embedding of src/index.js (fetch orchestration: redirect state
  machine, content-decoding pipeline, data:/file: URL dispatch) and
  src/request.js (Request construction and getNodeRequestOptions).

  Headers, Body, Response and the Node url module are collaborators whose
  source is not part of the embedded core; their small interfaces are
  modelled from the spec where noted.
-/

namespace WindowFetch

/-- Modelled from the spec: Headers (headers.js is not under src/), a
case-insensitive ordered multimap of header name to values, supporting
append / set / get / has / delete. -/
structure Headers where
  entries : List (String × String)
deriving DecidableEq

/-- ASCII lower-casing, character by character (JS toLowerCase on header
names and URL schemes). -/
def lowerStr (s : String) : String :=
  ⟨s.data.map Char.toLower⟩

/-- ASCII upper-casing, character by character (JS toUpperCase on the
request method). -/
def upperStr (s : String) : String :=
  ⟨s.data.map Char.toUpper⟩

/-- Whether the character list starts with the given pattern. -/
def listStarts : List Char → List Char → Bool
  | _, [] => true
  | [], _ :: _ => false
  | a :: as, b :: bs => a == b && listStarts as bs

/-- Split a character list around the first occurrence of a (non-empty)
pattern: the part before it and the part after it. -/
def breakOnSub (pat : List Char) : List Char → Option (List Char × List Char)
  | [] => none
  | c :: cs =>
    if listStarts (c :: cs) pat then some ([], (c :: cs).drop pat.length)
    else match breakOnSub pat cs with
      | some (pre, post) => some (c :: pre, post)
      | none => none

/-- Case-insensitive header-name comparison used by the Headers multimap. -/
def sameName (a b : String) : Bool :=
  lowerStr a == lowerStr b

/-- Modelled from the spec: Headers.get returns the first value stored under
the (case-insensitively matched) name, or null when absent. -/
def Headers.get (h : Headers) (name : String) : Option String :=
  (h.entries.find? (fun e => sameName e.fst name)).map (fun e => e.snd)

/-- Modelled from the spec: Headers.has. -/
def Headers.has (h : Headers) (name : String) : Bool :=
  h.entries.any (fun e => sameName e.fst name)

/-- Modelled from the spec: Headers.delete removes every value stored under
the name. -/
def Headers.delete (h : Headers) (name : String) : Headers :=
  ⟨h.entries.filter (fun e => !sameName e.fst name)⟩

/-- Modelled from the spec: Headers.set replaces all values stored under the
name with the single given value. -/
def Headers.set (h : Headers) (name value : String) : Headers :=
  ⟨h.entries.filter (fun e => !sameName e.fst name) ++ [(name, value)]⟩

/-- Modelled from the spec: Headers.append adds one value under the name. -/
def Headers.append (h : Headers) (name value : String) : Headers :=
  ⟨h.entries ++ [(name, value)]⟩

/-- Modelled from the spec: a Body byte source (body.js is not under src/).
A buffered source has a determinable total byte size and an optionally
declared content type; a stream source has neither a determinable size nor
re-materializable content. Bytes are naturals in [0, 255]. -/
inductive BodySource where
  | buffer (bytes : List Nat) (declaredType : Option String)
  | stream (declaredType : Option String)
deriving DecidableEq

/-- Modelled from the spec: clone(body) duplicates the body source as an
independently consumable copy; on immutable values this is the identity. -/
def cloneBody (b : BodySource) : BodySource := b

/-- Modelled from the spec: extractContentType reads the body's declared
content type, null when none. -/
def extractContentType : BodySource → Option String
  | .buffer _ t => t
  | .stream t => t

/-- Modelled from the spec: getTotalBytes is the body's total byte size when
determinable (buffered sources), null otherwise (stream sources). -/
def getTotalBytes : BodySource → Option Nat
  | .buffer bs _ => some bs.length
  | .stream _ => none

/-- Modelled from the spec: the fields of Node's url.parse result that the
core reads (protocol, hostname, and the formatted form). -/
structure ParsedURL where
  protocol : Option String
  hostname : Option String
  href : String
deriving DecidableEq

/-- JS truthiness of an optional string: null/undefined and the empty string
are falsy. -/
def truthyStr : Option String → Bool
  | some s => s ≠ ""
  | none => false

/-- Modelled from the spec: Node's url.parse, restricted to what the core
reads — for an absolute URL `scheme://host/...` it yields the lower-cased
`scheme:` as protocol and the authority up to a delimiter as hostname. -/
def parse_url (s : String) : ParsedURL :=
  match breakOnSub "://".data s.data with
  | some (scheme, rest) =>
      let host := rest.takeWhile (fun c => c ≠ '/' && c ≠ ':' && c ≠ '?' && c ≠ '#')
      { protocol := some (lowerStr ⟨scheme⟩ ++ ":"), hostname := some ⟨host⟩, href := s }
  | none => { protocol := none, hostname := none, href := s }

/-- Modelled from the spec: Node's url.format, inverse of parse_url on the
fields the core carries. -/
def format_url (p : ParsedURL) : String := p.href

/-- Modelled from the spec: Node's url.resolve — an absolute location
replaces the base, a relative one is resolved against it. -/
def resolve_url (base loc : String) : String :=
  if (breakOnSub "://".data loc.data).isSome then loc else base ++ loc

/-- JS `a || b` on an optional number: null/undefined and 0 are falsy. -/
def jsOrNat : Option Nat → Nat → Nat
  | some v, d => if v = 0 then d else v
  | none, d => d

/-- JS `a || b` on an optional string: null/undefined and "" are falsy. -/
def jsOrStr : Option String → String → String
  | some v, d => if v = "" then d else v
  | none, d => d

/-- The request descriptor produced by the Request constructor
(src/request.js): url (formatted parse result), upper-cased method, body,
headers, redirect mode, follow limit, compress flag, redirect counter,
agent handle, timeout and size limit. -/
structure Request where
  url : String
  parsedURL : ParsedURL
  method : String
  body : Option BodySource
  headers : Headers
  redirect : String
  follow : Nat
  compress : Bool
  counter : Nat
  agent : Option Unit
  timeout : Nat
  size : Nat
deriving DecidableEq

/-- The options record accepted by the Request constructor (src/request.js):
`none` models a JS field that is undefined (or null, for body/headers). -/
structure RequestInit where
  method : Option String := none
  body : Option BodySource := none
  headers : Option Headers := none
  redirect : Option String := none
  follow : Option Nat := none
  compress : Option Bool := none
  counter : Option Nat := none
  agent : Option Unit := none
  timeout : Option Nat := none
  size : Option Nat := none
deriving DecidableEq

/-- The `input` argument of the Request constructor: a URL string or a prior
Request instance. -/
inductive RequestInput where
  | str (s : String)
  | req (r : Request)
deriving DecidableEq

/-- The prior request seen by the constructor, none when the input is a URL
(after normalization the non-Request input contributes `{}`). -/
def inputRequestOf : RequestInput → Option Request
  | .str _ => none
  | .req r => some r

/-- src/request.js line 49: the pre-normalization method
`init.method || input.method || 'GET'`. -/
def rawMethodOf (input : RequestInput) (init : RequestInit) : String :=
  jsOrStr init.method (jsOrStr ((inputRequestOf input).map (fun r => r.method)) "GET")

/-- src/request.js line 51: a body is supplied directly
(`init.body != null`) or inherited from a prior request with a non-null
body. -/
def bodySupplied (input : RequestInput) (init : RequestInit) : Bool :=
  init.body.isSome || (match inputRequestOf input with
    | some r => r.body.isSome
    | none => false)

/-- The Request constructor, src/request.js lines 23-96. Follows the source
statement by statement: parse the input URL (or the prior request's URL);
compute the pre-normalization method `init.method || input.method || 'GET'`;
throw when a body is supplied (directly or inherited) while that method is
the string GET or HEAD; inherit a clone of the prior request's body when no
body override is given; upper-case the method; copy headers and append an
inferred Content-Type when a direct body carries one; fill follow/compress
via undefined-checks and counter/timeout/size/agent via JS `||`. -/
def mkRequest (input : RequestInput) (init : RequestInit) : Except String Request :=
  let parsedURL := match input with
    | .str s => parse_url s
    | .req r => parse_url r.url
  let inputReq : Option Request := inputRequestOf input
  let method0 := rawMethodOf input init
  if bodySupplied input init && (method0 == "GET" || method0 == "HEAD") then
    .error "Request with GET/HEAD method cannot have body"
  else
    let inputBody : Option BodySource :=
      match init.body with
      | some b => some b
      | none => match inputReq with
        | some r => match r.body with
          | some b => some (cloneBody b)
          | none => none
        | none => none
    let timeout := jsOrNat init.timeout (jsOrNat (inputReq.map (fun r => r.timeout)) 0)
    let size := jsOrNat init.size (jsOrNat (inputReq.map (fun r => r.size)) 0)
    let method := upperStr method0
    let redirect := jsOrStr init.redirect (jsOrStr (inputReq.map (fun r => r.redirect)) "follow")
    let headers0 := match init.headers with
      | some h => h
      | none => match inputReq with
        | some r => r.headers
        | none => ⟨[]⟩
    let headers1 := match init.body with
      | some b => match extractContentType b with
        | some ct => if headers0.has "Content-Type" then headers0 else headers0.append "Content-Type" ct
        | none => headers0
      | none => headers0
    let follow := init.follow.getD ((inputReq.map (fun r => r.follow)).getD 20)
    let compress := init.compress.getD ((inputReq.map (fun r => r.compress)).getD true)
    let counter := jsOrNat init.counter (jsOrNat (inputReq.map (fun r => r.counter)) 0)
    let agent := match init.agent with
      | some a => some a
      | none => inputReq.bind (fun r => r.agent)
    .ok { url := format_url parsedURL
        , parsedURL := parsedURL
        , method := method
        , body := inputBody
        , headers := headers1
        , redirect := redirect
        , follow := follow
        , compress := compress
        , counter := counter
        , agent := agent
        , timeout := timeout
        , size := size }

/-- View of a Request as the options record it presents when passed as the
`opts` argument of a recursive fetch call (every field is a defined JS
property of the instance). -/
def Request.toInit (r : Request) : RequestInit :=
  { method := some r.method
  , body := r.body
  , headers := some r.headers
  , redirect := some r.redirect
  , follow := some r.follow
  , compress := some r.compress
  , counter := some r.counter
  , agent := r.agent
  , timeout := some r.timeout
  , size := some r.size }

/-- The transport options produced by getNodeRequestOptions: the parsed-URL
fields the claims read, plus method, serialized headers and agent. -/
structure NodeOptions where
  protocol : Option String
  hostname : Option String
  method : String
  headers : Headers
  agent : Option Unit
deriving DecidableEq

/-- Fetch step 3 of getNodeRequestOptions (src/request.js lines 126-128):
default the Accept header when absent. -/
def defaultAccept (h : Headers) : Headers :=
  if h.has "Accept" then h else h.set "Accept" "*/*"

/-- HTTP-network-or-cache fetch steps 5-9 of getNodeRequestOptions
(src/request.js lines 140-149): the computed Content-Length value — "0"
when the method is POST or PUT (matched case-insensitively) and the body is
absent, else the body's total byte size when determinable, else null. -/
def contentLengthValueOf (request : Request) : Option String :=
  let v : Option String :=
    if request.body.isNone && (upperStr request.method == "POST" || upperStr request.method == "PUT") then
      some "0"
    else
      none
  match request.body with
  | some b => match getTotalBytes b with
    | some n => some (toString n)
    | none => v
  | none => v

/-- src/request.js lines 150-152: set the Content-Length header only when a
truthy value was computed. -/
def applyContentLength (h : Headers) (clv : Option String) : Headers :=
  match clv with
  | some s => if s = "" then h else h.set "Content-Length" s
  | none => h

/-- HTTP-network-or-cache fetch step 12 of getNodeRequestOptions
(src/request.js lines 155-157): default the User-Agent header when absent. -/
def defaultUserAgent (h : Headers) : Headers :=
  if h.has "User-Agent" then h else
    h.set "User-Agent" "node-fetch/1.0 (+https://github.com/bitinn/node-fetch)"

/-- HTTP-network-or-cache fetch step 16 of getNodeRequestOptions
(src/request.js lines 160-162): when compress is on, set Accept-Encoding
unconditionally. -/
def applyAcceptEncoding (compress : Bool) (h : Headers) : Headers :=
  if compress then h.set "Accept-Encoding" "gzip,deflate" else h

/-- src/request.js lines 163-165: default the Connection header to close
when absent and no agent is configured. -/
def defaultConnection (agent : Option Unit) (h : Headers) : Headers :=
  if !h.has "Connection" && agent.isNone then h.set "Connection" "close" else h

/-- getNodeRequestOptions, src/request.js lines 121-175: work on a copy of
the request's headers; default Accept; reject non-absolute or non-HTTP(S)
URLs; compute and apply Content-Length; default User-Agent; force
Accept-Encoding when compress is on; default Connection. -/
def getNodeRequestOptions (request : Request) : Except String NodeOptions :=
  let parsedURL := request.parsedURL
  let headers := defaultAccept request.headers
  if !truthyStr parsedURL.protocol || !truthyStr parsedURL.hostname then
    .error "Only absolute URLs are supported"
  else if !(parsedURL.protocol == some "http:" || parsedURL.protocol == some "https:") then
    .error "Only HTTP(S) protocols are supported"
  else
    let headers := applyContentLength headers (contentLengthValueOf request)
    let headers := defaultUserAgent headers
    let headers := applyAcceptEncoding request.compress headers
    let headers := defaultConnection request.agent headers
    .ok { protocol := parsedURL.protocol
        , hostname := parsedURL.hostname
        , method := request.method
        , headers := headers
        , agent := request.agent }

/-- fetch.isRedirect, src/index.js line 232. -/
def isRedirect (code : Nat) : Bool :=
  code == 301 || code == 302 || code == 303 || code == 307 || code == 308

/-- A raw transport response as Node's http module delivers it: status code,
status message, and a header record whose keys Node has lower-cased. -/
structure NodeResponse where
  statusCode : Nat
  statusMessage : String
  headers : List (String × String)
deriving DecidableEq

/-- Property access on the raw Node header record (exact key match; Node has
already lower-cased incoming names). -/
def nodeHeaderGet (hs : List (String × String)) (name : String) : Option String :=
  (hs.find? (fun e => e.fst == name)).map (fun e => e.snd)

/-- The method/body rewrite of src/index.js lines 91-97: for a 303 response,
or a 301/302 response to a POST request, the method becomes GET, the body is
cleared and any content-length header is removed. -/
def rewriteForRedirect (request : Request) (status : Nat) : Request :=
  if status = 303 ∨ ((status = 301 ∨ status = 302) ∧ request.method = "POST") then
    { request with method := "GET", body := none
                 , headers := request.headers.delete "content-length" }
  else
    request

/-- The request state carried into the recursive fetch call for a followed
redirect (src/index.js lines 91-101): the rewrite above, then counter++. -/
def nextRequestState (request : Request) (status : Nat) : Request :=
  let r1 := rewriteForRedirect request status
  { r1 with counter := r1.counter + 1 }

/-- Outcome of the redirect-handling block for one response. -/
inductive RedirectOutcome where
  | failure (kind : String)
  | followNext (rewritten : Request) (nextUrl : String)
  | terminal
deriving DecidableEq

/-- The redirect-handling block of the response handler, src/index.js lines
74-103: for a redirect status with mode other than manual, check mode=error,
then counter >= follow, then a truthy location header, and otherwise follow
with the rewritten request state and the resolved location. -/
def handleRedirect (request : Request) (res : NodeResponse) : RedirectOutcome :=
  if isRedirect res.statusCode && request.redirect != "manual" then
    if request.redirect == "error" then
      .failure "no-redirect"
    else if request.follow ≤ request.counter then
      .failure "max-redirect"
    else
      let loc := nodeHeaderGet res.headers "location"
      if !truthyStr loc then
        .failure "invalid-redirect"
      else
        .followNext (nextRequestState request res.statusCode)
          (resolve_url request.url (loc.getD ""))
  else
    .terminal

/-- The next-hop request of a followed redirect: the rewritten state passed
through the Request constructor of the recursive fetch call
(src/index.js line 101: fetch(resolve_url(...), request)). -/
def nextHopOf (request : Request) (res : NodeResponse) : Option Request :=
  match handleRedirect request res with
  | .followNext rw nextUrl => (mkRequest (.str nextUrl) rw.toInit).toOption
  | _ => none

/-- Observable outcome of driving the fetch recursion against a finite
transcript of transport responses (one response per transport call). -/
inductive FetchOutcome where
  | terminal (request : Request) (res : NodeResponse)
  | failure (kind : String)
  | thrown (msg : String)
  | needsTransport (request : Request)
deriving DecidableEq

/-- The fetch recursion of src/index.js, driven by a transcript of transport
responses: each call first builds transport options (which can throw), then
consumes one response; a followed redirect re-enters fetch with the resolved
URL and the rewritten request as options. An exhausted transcript marks the
point where another transport call would be issued. -/
def fetchChain (request : Request) : List NodeResponse → FetchOutcome
  | [] =>
    match getNodeRequestOptions request with
    | .error e => .thrown e
    | .ok _ => .needsTransport request
  | res :: rest =>
    match getNodeRequestOptions request with
    | .error e => .thrown e
    | .ok _ =>
      match handleRedirect request res with
      | .failure k => .failure k
      | .terminal => .terminal request res
      | .followNext rw nextUrl =>
        match mkRequest (.str nextUrl) rw.toInit with
        | .error e => .thrown e
        | .ok req2 => fetchChain req2 rest

/-- The decoder selected by the content-decoding pipeline. -/
inductive Decoding where
  | identity
  | gunzip
  | inflate
  | inflateRaw
deriving DecidableEq

/-- The content-decoding pipeline of src/index.js lines 131-182: skip
decoding when compression support is off, the method is HEAD, there is no
Content-Encoding header, or the status is 204 or 304; gunzip for gzip and
x-gzip; for deflate and x-deflate sniff the first byte of the raw stream
(low nibble 8 means zlib-wrapped, else raw deflate; an empty stream never
delivers a first chunk, so no decoder is ever chosen); anything else passes
through unmodified. -/
def selectDecoding (compress : Bool) (method : String) (headers : Headers)
    (statusCode : Nat) (raw : List Nat) : Option Decoding :=
  let codings := headers.get "Content-Encoding"
  if !compress || method == "HEAD" || codings == none || statusCode == 204 || statusCode == 304 then
    some .identity
  else if codings == some "gzip" || codings == some "x-gzip" then
    some .gunzip
  else if codings == some "deflate" || codings == some "x-deflate" then
    match raw with
    | [] => none
    | b :: _ => if b % 16 == 8 then some .inflate else some .inflateRaw
  else
    some .identity

/-- Modelled from the spec: the ResponseDescriptor (response.js is not under
src/) as the data: branch of src/index.js populates it. -/
structure ResponseDesc where
  url : String
  status : Nat
  statusText : String
  headers : Headers
  body : List Nat
deriving DecidableEq

/-- The data: URL match of src/index.js line 198, regex
`^data:(.+?)(;base64)?,` : the media type is the non-empty text between
`data:` and the first comma, with a trailing `;base64` marker split off into
the base64 flag; the data string is everything after that first comma. -/
def parseDataURL (url : String) : Option (String × Bool × String) :=
  if listStarts url.data "data:".data then
    match breakOnSub [','] (url.data.drop 5) with
    | some (pre, post) =>
      if pre = [] then none
      else
        let dataString : String := ⟨post⟩
        if listStarts pre.reverse ";base64".data.reverse && pre.length > 7 then
          some (⟨pre.take (pre.length - 7)⟩, true, dataString)
        else
          some (⟨pre⟩, false, dataString)
    | none => none
  else
    none

/-- Modelled from the spec: the value of one base64 alphabet character;
other characters (including the `=` padding) are ignored by the decoder. -/
def base64Val (c : Char) : Option Nat :=
  if 'A' ≤ c ∧ c ≤ 'Z' then some (c.toNat - 65)
  else if 'a' ≤ c ∧ c ≤ 'z' then some (c.toNat - 97 + 26)
  else if '0' ≤ c ∧ c ≤ '9' then some (c.toNat - 48 + 52)
  else if c = '+' then some 62
  else if c = '/' then some 63
  else none

/-- Modelled from the spec: bit accumulator of the base64 decoder — shift in
six bits per alphabet character and emit a byte whenever eight or more bits
are pending. -/
def base64Loop : List Nat → Nat → Nat → List Nat
  | [], _, _ => []
  | v :: rest, acc, nbits =>
    let acc2 := acc * 64 + v
    let nbits2 := nbits + 6
    if nbits2 ≥ 8 then
      (acc2 / 2 ^ (nbits2 - 8)) % 256 :: base64Loop rest (acc2 % 2 ^ (nbits2 - 8)) (nbits2 - 8)
    else
      base64Loop rest acc2 nbits2

/-- Modelled from the spec: Buffer.from(s, 'base64') — decode the base64
alphabet characters of s into bytes. -/
def base64Decode (s : String) : List Nat :=
  base64Loop (s.data.filterMap base64Val) 0 0

/-- Modelled from the spec: the UTF-8 encoding of one code point. -/
def utf8EncodeCodePoint (n : Nat) : List Nat :=
  if n < 0x80 then [n]
  else if n < 0x800 then [0xC0 + n / 64, 0x80 + n % 64]
  else if n < 0x10000 then [0xE0 + n / 4096, 0x80 + (n / 64) % 64, 0x80 + n % 64]
  else [0xF0 + n / 262144, 0x80 + (n / 4096) % 64, 0x80 + (n / 64) % 64, 0x80 + n % 64]

/-- Modelled from the spec: Buffer.from(s, 'utf8') — the UTF-8 bytes of s. -/
def utf8Bytes (s : String) : List Nat :=
  s.data.foldr (fun c acc => utf8EncodeCodePoint c.toNat ++ acc) []

/-- The data: branch of src/index.js lines 198-215: decode the inline data
(base64 when the marker was present, utf8 otherwise) and resolve a 200 OK
response whose Content-Type header is the matched media type. -/
def dataURLResponse (url : String) : Option ResponseDesc :=
  match parseDataURL url with
  | none => none
  | some (type, isBase64, dataString) =>
    let dataBuffer := if isBase64 then base64Decode dataString else utf8Bytes dataString
    some { url := url
         , status := 200
         , statusText := "OK"
         , headers := ⟨[("Content-Type", type)]⟩
         , body := dataBuffer }

/-- Which branch a fetched URL string takes in src/index.js lines 188-221:
the file: scheme, the data: scheme (resolved synchronously, no transport),
or the default network path. -/
inductive FetchDispatch where
  | fileScheme (path : String)
  | dataScheme (resp : ResponseDesc)
  | network
deriving DecidableEq

/-- The URL-string dispatch of src/index.js lines 188-221. -/
def dispatchURL (url : String) : FetchDispatch :=
  if listStarts url.data "file://".data then
    .fileScheme ⟨url.data.drop 7⟩
  else
    match dataURLResponse url with
    | some r => .dataScheme r
    | none => .network

/-! ### Derived request forms and concrete fixtures used by the theorems -/

/-- The value mkRequest computes for a URL string and the options view of a
body-less prior request: the prior request's fields with the JS falsy
fallbacks applied to method, redirect, counter, timeout and size. -/
def strInitRequest (u : String) (rw : Request) : Request :=
  { url := u
  , parsedURL := parse_url u
  , method := upperStr (jsOrStr (some rw.method) "GET")
  , body := none
  , headers := rw.headers
  , redirect := jsOrStr (some rw.redirect) "follow"
  , follow := rw.follow
  , compress := rw.compress
  , counter := jsOrNat (some rw.counter) 0
  , agent := rw.agent
  , timeout := jsOrNat (some rw.timeout) 0
  , size := jsOrNat (some rw.size) 0 }

/-- A location value that is an absolute http(s) URL with a nonempty host. -/
def absoluteHttpLoc (l : String) : Prop :=
  l ≠ "" ∧ (breakOnSub "://".data l.data).isSome = true ∧
  ((parse_url l).protocol = some "http:" ∨ (parse_url l).protocol = some "https:") ∧
  truthyStr (parse_url l).hostname = true

/-- A transport response that redirects to an absolute http(s) location. -/
def goodRedirectRes (res : NodeResponse) : Prop :=
  isRedirect res.statusCode = true ∧
  ∃ l, nodeHeaderGet res.headers "location" = some l ∧ absoluteHttpLoc l

/-- Options naming a lower-case method together with a direct body. -/
def lowerGetInit : RequestInit :=
  { method := some "get", body := some (.buffer [120] none) }

/-- A prior request with nonzero counter, timeout and size. -/
def wPrior : Request :=
  { url := "http://a/", parsedURL := parse_url "http://a/", method := "POST"
  , body := none, headers := ⟨[]⟩, redirect := "follow", follow := 20
  , compress := true, counter := 5, agent := none, timeout := 7, size := 9 }

/-- Options passing explicit zeros for counter, timeout and size. -/
def wZeroInit : RequestInit := { counter := some 0, timeout := some 0, size := some 0 }

/-- The base64 Hello data URL of the spec's test property. -/
def dataHello : String := "data:text/plain;base64,SGVsbG8="

/-- The response the data: branch produces for dataHello. -/
def helloResp : ResponseDesc :=
  { url := dataHello, status := 200, statusText := "OK"
  , headers := ⟨[("Content-Type", "text/plain")]⟩
  , body := [72, 101, 108, 108, 111] }

/-- A concrete raw (non-base64) data URL response. -/
def rawDataResp : ResponseDesc :=
  { url := "data:a,b", status := 200, statusText := "OK"
  , headers := ⟨[("Content-Type", "a")]⟩, body := utf8Bytes "b" }

/-- A plain follow-mode request with no special headers. -/
def reqFollow : Request :=
  { url := "http://a/", parsedURL := parse_url "http://a/", method := "GET"
  , body := none, headers := ⟨[]⟩, redirect := "follow", follow := 20
  , compress := true, counter := 0, agent := none, timeout := 0, size := 0 }

/-- A 301 response whose Location header is present but empty. -/
def resEmptyLoc : NodeResponse :=
  { statusCode := 301, statusMessage := "Moved", headers := [("location", "")] }

/-- A 302 response with an absolute Location. -/
def resLoc : NodeResponse :=
  { statusCode := 302, statusMessage := "Found", headers := [("location", "http://b/")] }

/-- A POST request carrying a one-byte body and its Content-Length header. -/
def wPost : Request :=
  { url := "http://a/", parsedURL := parse_url "http://a/", method := "POST"
  , body := some (.buffer [49] none), headers := ⟨[("Content-Length", "1")]⟩
  , redirect := "follow", follow := 20, compress := true, counter := 0
  , agent := none, timeout := 0, size := 0 }

/-- A 301 response redirecting the POST. -/
def res301 : NodeResponse :=
  { statusCode := 301, statusMessage := "Moved", headers := [("location", "http://b/")] }

/-- The next-hop request of wPost following res301. -/
def wPostNext : Request :=
  { url := "http://b/", parsedURL := parse_url "http://b/", method := "GET"
  , body := none, headers := ⟨[]⟩, redirect := "follow", follow := 20
  , compress := true, counter := 1, agent := none, timeout := 0, size := 0 }

/-- A GET request whose caller already provided a Content-Length header. -/
def reqWithCL : Request :=
  { url := "http://a/", parsedURL := parse_url "http://a/", method := "GET"
  , body := none, headers := ⟨[("Content-Length", "5")]⟩, redirect := "follow"
  , follow := 20, compress := true, counter := 0, agent := none
  , timeout := 0, size := 0 }

/-- A plain POST request with no body and no headers. -/
def wPostReq : Request :=
  { url := "http://a/", parsedURL := parse_url "http://a/", method := "POST"
  , body := none, headers := ⟨[]⟩, redirect := "follow", follow := 20
  , compress := true, counter := 0, agent := none, timeout := 0, size := 0 }

/-- The options built for wPostReq. -/
def wPostOpts : NodeOptions :=
  { protocol := some "http:", hostname := some "a", method := "POST"
  , headers := ⟨[("Accept", "*/*"), ("Content-Length", "0")
      , ("User-Agent", "node-fetch/1.0 (+https://github.com/bitinn/node-fetch)")
      , ("Accept-Encoding", "gzip,deflate"), ("Connection", "close")]⟩
  , agent := none }

/-- A compress-enabled GET request that supplies its own Accept, User-Agent,
Connection and Accept-Encoding headers. -/
def wHdrReq : Request :=
  { url := "http://a/", parsedURL := parse_url "http://a/", method := "GET"
  , body := none
  , headers := ⟨[("Accept", "text/html"), ("User-Agent", "custom")
      , ("Connection", "keep-alive"), ("Accept-Encoding", "identity")]⟩
  , redirect := "follow", follow := 20, compress := true, counter := 0
  , agent := none, timeout := 0, size := 0 }

/-- The options built for wHdrReq: Accept-Encoding replaced, the rest kept. -/
def wHdrOpts : NodeOptions :=
  { protocol := some "http:", hostname := some "a", method := "GET"
  , headers := ⟨[("Accept", "text/html"), ("User-Agent", "custom")
      , ("Connection", "keep-alive"), ("Accept-Encoding", "gzip,deflate")]⟩
  , agent := none }

/-- Method well-formedness a fetch chain needs of a body-carrying request:
the stored method is a nonempty upper-cased string other than the literals
GET and HEAD. It holds vacuously for body-less requests, and for every
body-carrying request except those built through the pre-normalization
loophole (stored method GET/HEAD with a body), whose next-hop constructor
throws instead of continuing the chain. -/
def bodyMethodOk (r : Request) : Prop :=
  ∀ b, r.body = some b → r.method ≠ "" ∧ upperStr r.method = r.method ∧
    r.method ≠ "GET" ∧ r.method ≠ "HEAD"

/-- A follow-mode POST request carrying a body, allowing one redirect hop. -/
def reqHop : Request :=
  { url := "http://a/", parsedURL := parse_url "http://a/", method := "POST"
  , body := some (.buffer [49] none), headers := ⟨[]⟩, redirect := "follow"
  , follow := 1, compress := true, counter := 0, agent := none
  , timeout := 0, size := 0 }

/-- A 307 hop response with an absolute location (method and body are
preserved across 307 hops, so the body rides the whole chain). -/
def resHop : NodeResponse :=
  { statusCode := 307, statusMessage := "Temporary Redirect"
  , headers := [("location", "http://h/x")] }

/-! ### Helper lemmas -/

lemma jsOrNat_zero (v : Nat) : jsOrNat (some 0) (jsOrNat (some v) 0) = v := by
  unfold jsOrNat
  by_cases h : v = 0
  · simp [h]
  · simp [h]

lemma except_ok_of_toOption {α : Type} {e : Except String α} {a : α}
    (h : e.toOption = some a) : e = .ok a := by
  cases e <;> simp [Except.toOption] at h ⊢
  exact h

lemma sameName_self (a : String) : sameName a a = true := by
  simp [sameName]

lemma sameName_congr_left {a b : String} (hab : sameName a b = true) (m : String) :
    sameName a m = sameName b m := by
  have h : lowerStr a = lowerStr b := by simpa [sameName] using hab
  simp [sameName, h]

lemma sameName_congr_right {a b : String} (hab : sameName a b = true) (m : String) :
    sameName m a = sameName m b := by
  have h : lowerStr a = lowerStr b := by simpa [sameName] using hab
  simp [sameName, h]

lemma find?_append_single {l : List (String × String)} {n m v : String}
    (hnm : sameName n m = false) :
    ((l.filter (fun e => !sameName e.fst n)) ++ [(n, v)]).find?
        (fun e => sameName e.fst m)
      = l.find? (fun e => sameName e.fst m) := by
  induction l with
  | nil => simp [List.find?, hnm]
  | cons e t ih =>
    by_cases he : sameName e.fst n = true
    · have hem : sameName e.fst m = false := by
        rw [sameName_congr_left he, hnm]
      simp [List.filter_cons, he, List.find?_cons, hem, ih]
    · by_cases hem : sameName e.fst m = true
      · simp [List.filter_cons, he, List.find?_cons, hem]
      · simp [List.filter_cons, he, List.find?_cons, hem, ih]

lemma find?_filter_not {l : List (String × String)} {n : String} :
    (l.filter (fun e => !sameName e.fst n)).find? (fun e => sameName e.fst n) = none := by
  induction l with
  | nil => rfl
  | cons e t ih =>
    by_cases he : sameName e.fst n = true
    · simp [List.filter_cons, he, ih]
    · simp [List.filter_cons, List.find?_cons, he, ih]

lemma Headers.get_set_self (h : Headers) (n v : String) : (h.set n v).get n = some v := by
  unfold Headers.get Headers.set
  rw [List.find?_append, find?_filter_not]
  simp [List.find?, sameName_self]

lemma Headers.get_set_of_ne (h : Headers) {n m : String} (v : String)
    (hnm : sameName n m = false) : (h.set n v).get m = h.get m := by
  unfold Headers.get Headers.set
  rw [find?_append_single hnm]

lemma Headers.has_set_of_ne (h : Headers) {n m : String} (v : String)
    (hnm : sameName n m = false) : (h.set n v).has m = h.has m := by
  unfold Headers.has Headers.set
  induction h.entries with
  | nil => simp [List.any, hnm]
  | cons e t ih =>
    by_cases he : sameName e.fst n = true
    · have hem : sameName e.fst m = false := by
        rw [sameName_congr_left he, hnm]
      simp only [List.filter_cons, he] at ih ⊢
      simp [hem, ih]
    · simp only [List.filter_cons, he] at ih ⊢
      simp only [Bool.not_false, if_true, List.any_cons] at ih ⊢
      rw [← ih]
      simp [List.any_append]

lemma Headers.has_delete_of_same (h : Headers) {n m : String}
    (hnm : sameName n m = true) : (h.delete n).has m = false := by
  unfold Headers.has Headers.delete
  simp only [List.any_eq_false]
  intro e he
  rw [List.mem_filter] at he
  intro hem
  have hen : sameName e.fst n = true := by
    rw [sameName_congr_right hnm e.fst]
    exact hem
  simp [hen] at he

/-! ### Per-stage lemmas about getNodeRequestOptions -/

lemma get_defaultAccept (h : Headers) {m : String} (hn : sameName "Accept" m = false) :
    (defaultAccept h).get m = h.get m := by
  unfold defaultAccept
  split
  · rfl
  · exact h.get_set_of_ne _ hn

lemma get_applyContentLength (h : Headers) (clv : Option String) {m : String}
    (hn : sameName "Content-Length" m = false) :
    (applyContentLength h clv).get m = h.get m := by
  unfold applyContentLength
  match clv with
  | none => rfl
  | some s =>
    simp only []
    split
    · rfl
    · exact h.get_set_of_ne _ hn

lemma get_defaultUserAgent (h : Headers) {m : String} (hn : sameName "User-Agent" m = false) :
    (defaultUserAgent h).get m = h.get m := by
  unfold defaultUserAgent
  split
  · rfl
  · exact h.get_set_of_ne _ hn

lemma get_applyAcceptEncoding (c : Bool) (h : Headers) {m : String}
    (hn : sameName "Accept-Encoding" m = false) :
    (applyAcceptEncoding c h).get m = h.get m := by
  unfold applyAcceptEncoding
  split
  · exact h.get_set_of_ne _ hn
  · rfl

lemma get_defaultConnection (a : Option Unit) (h : Headers) {m : String}
    (hn : sameName "Connection" m = false) :
    (defaultConnection a h).get m = h.get m := by
  unfold defaultConnection
  split
  · exact h.get_set_of_ne _ hn
  · rfl

lemma has_defaultAccept (h : Headers) {m : String} (hn : sameName "Accept" m = false) :
    (defaultAccept h).has m = h.has m := by
  unfold defaultAccept
  split
  · rfl
  · exact h.has_set_of_ne _ hn

lemma has_applyContentLength (h : Headers) (clv : Option String) {m : String}
    (hn : sameName "Content-Length" m = false) :
    (applyContentLength h clv).has m = h.has m := by
  unfold applyContentLength
  match clv with
  | none => rfl
  | some s =>
    simp only []
    split
    · rfl
    · exact h.has_set_of_ne _ hn

lemma has_defaultUserAgent (h : Headers) {m : String} (hn : sameName "User-Agent" m = false) :
    (defaultUserAgent h).has m = h.has m := by
  unfold defaultUserAgent
  split
  · rfl
  · exact h.has_set_of_ne _ hn

lemma has_applyAcceptEncoding (c : Bool) (h : Headers) {m : String}
    (hn : sameName "Accept-Encoding" m = false) :
    (applyAcceptEncoding c h).has m = h.has m := by
  unfold applyAcceptEncoding
  split
  · exact h.has_set_of_ne _ hn
  · rfl

/-- The headers of a successful getNodeRequestOptions result are the five
header stages applied in source order to the request's headers. -/
lemma getNodeRequestOptions_headers (r : Request) (opts : NodeOptions)
    (hok : getNodeRequestOptions r = .ok opts) :
    opts.headers =
      defaultConnection r.agent (applyAcceptEncoding r.compress (defaultUserAgent
        (applyContentLength (defaultAccept r.headers) (contentLengthValueOf r)))) := by
  unfold getNodeRequestOptions at hok
  dsimp only at hok
  split at hok
  · simp at hok
  · split at hok
    · simp at hok
    · injection hok with hok
      rw [← hok]

/-- toString of a natural number is never the empty string (so the computed
Content-Length value String(totalBytes) is always truthy). -/
lemma toDigitsCore_ne_nil (b : Nat) :
    ∀ (fuel n : Nat) (ds : List Char), ds ≠ [] → Nat.toDigitsCore b fuel n ds ≠ [] := by
  intro fuel
  induction fuel with
  | zero => intro n ds h; exact h
  | succ f ih =>
    intro n ds h
    unfold Nat.toDigitsCore
    dsimp only
    split
    · simp
    · exact ih _ _ (by simp)

lemma toString_nat_ne_empty (n : Nat) : toString n ≠ "" := by
  show Nat.repr n ≠ ""
  unfold Nat.repr Nat.toDigits
  intro hcontra
  have hnil : Nat.toDigitsCore 10 (n + 1) n [] = [] := by
    have := congrArg String.data hcontra
    simpa [List.asString] using this
  revert hnil
  unfold Nat.toDigitsCore
  dsimp only
  split
  · simp
  · exact toDigitsCore_ne_nil 10 _ _ _ (by simp)

/-! ### Claim C5: content-decoding exclusion rules -/

/-- C5: the content-decoding pipeline returns the raw body stream unmodified
whenever the compress flag is false, the method is HEAD, the
Content-Encoding header is absent, or the status is 204 or 304. -/
theorem decoding_exclusion_rules (compress : Bool) (method : String) (headers : Headers)
    (statusCode : Nat) (raw : List Nat)
    (h : compress = false ∨ method = "HEAD" ∨ headers.get "Content-Encoding" = none
       ∨ statusCode = 204 ∨ statusCode = 304) :
    selectDecoding compress method headers statusCode raw = some .identity := by
  unfold selectDecoding
  rcases h with h | h | h | h | h <;> simp [h]

/-- C5 witness: a HEAD response carrying Content-Encoding gzip is returned
with its body untouched. -/
theorem decoding_exclusion_rules_witness :
    selectDecoding true "HEAD" ⟨[("Content-Encoding", "gzip")]⟩ 200 [31, 139] = some .identity :=
  decoding_exclusion_rules true "HEAD" ⟨[("Content-Encoding", "gzip")]⟩ 200 [31, 139]
    (Or.inr (Or.inl rfl))

/-! ### Claim C6: deflate first-byte sniff -/

/-- C6: for a deflate or x-deflate response that is not excluded from
decoding, the decoder is chosen by the low nibble of the first raw byte:
8 selects the zlib-wrapped inflate, anything else the raw inflate. -/
theorem deflate_first_byte_sniff (method : String) (headers : Headers) (statusCode : Nat)
    (b : Nat) (rest : List Nat)
    (hm : method ≠ "HEAD") (h204 : statusCode ≠ 204) (h304 : statusCode ≠ 304)
    (hc : headers.get "Content-Encoding" = some "deflate"
        ∨ headers.get "Content-Encoding" = some "x-deflate") :
    selectDecoding true method headers statusCode (b :: rest)
      = some (if b % 16 = 8 then Decoding.inflate else Decoding.inflateRaw) := by
  unfold selectDecoding
  rcases hc with hc | hc <;> simp [hc, hm, h204, h304, apply_ite]

/-- C6 witness: a zlib-wrapped first byte 0x78 decodes via inflate, a raw
first byte 0x4b via inflateRaw. -/
theorem deflate_first_byte_sniff_witness :
    selectDecoding true "GET" ⟨[("Content-Encoding", "deflate")]⟩ 200 [120, 156]
        = some Decoding.inflate ∧
    selectDecoding true "GET" ⟨[("Content-Encoding", "deflate")]⟩ 200 [75]
        = some Decoding.inflateRaw := by
  constructor
  · have h := deflate_first_byte_sniff "GET" ⟨[("Content-Encoding", "deflate")]⟩ 200 120 [156]
      (by decide) (by decide) (by decide) (Or.inl (by decide))
    simpa using h
  · have h := deflate_first_byte_sniff "GET" ⟨[("Content-Encoding", "deflate")]⟩ 200 75 []
      (by decide) (by decide) (by decide) (Or.inl (by decide))
    simpa using h

/-! ### Claim C4: GET/HEAD with body -/

/-- C4 counterexample: a request whose method normalizes to GET and which is
given a direct body is constructed without any input-validation error,
because the source checks the method before upper-casing it. -/
theorem lowercase_get_with_body_accepted :
    (mkRequest (.str "http://a/") lowerGetInit).toOption.map
        (fun r => (r.method, r.body.isSome)) = some ("GET", true) := by
  decide

/-- C4 amended: construction fails with the input-validation error exactly
when a body is supplied (directly or inherited) and the method as written in
the options (before upper-casing, defaulting to GET) is the literal string
GET or HEAD. -/
theorem get_head_body_rejected (input : RequestInput) (init : RequestInit)
    (hbody : bodySupplied input init = true)
    (hmethod : rawMethodOf input init = "GET" ∨ rawMethodOf input init = "HEAD") :
    mkRequest input init = .error "Request with GET/HEAD method cannot have body" := by
  unfold mkRequest
  dsimp only
  rcases hmethod with hm | hm <;> simp [hbody, hm]

/-- C4 amended witness: a direct body with the upper-case method GET is
rejected. -/
theorem get_head_body_rejected_witness :
    mkRequest (.str "http://a/") { method := some "GET", body := some (.buffer [120] none) }
      = .error "Request with GET/HEAD method cannot have body" :=
  get_head_body_rejected (.str "http://a/")
    { method := some "GET", body := some (.buffer [120] none) }
    (by decide) (Or.inl (by decide))

/-! ### Claim C10: falsy zero options do not override inherited fields -/

/-- C10: when a request is built from a prior request, explicit zero values
for counter, timeout and size are falsy in the JS `||` chains, so the
constructed request keeps the prior request's values. -/
theorem zero_options_inherit (r : Request) (init : RequestInit) (req2 : Request)
    (hc : init.counter = some 0) (ht : init.timeout = some 0) (hs : init.size = some 0)
    (hok : mkRequest (.req r) init = .ok req2) :
    req2.counter = r.counter ∧ req2.timeout = r.timeout ∧ req2.size = r.size := by
  unfold mkRequest at hok
  dsimp only at hok
  split at hok
  · simp at hok
  · injection hok with hok
    rw [← hok]
    refine ⟨?_, ?_, ?_⟩ <;> simp [hc, ht, hs, inputRequestOf, jsOrNat_zero]

/-- C10 witness: counter 0 in the options cannot reset the inherited
counter 5. -/
theorem zero_options_inherit_witness :
    mkRequest (.req wPrior) wZeroInit = .ok wPrior ∧
    wPrior.counter = wPrior.counter ∧ wPrior.timeout = wPrior.timeout ∧
    wPrior.size = wPrior.size :=
  ⟨except_ok_of_toOption (by decide),
   zero_options_inherit wPrior wZeroInit wPrior rfl rfl rfl
     (except_ok_of_toOption (by decide))⟩

/-! ### Claim C8: data: URL fetch -/

/-- C8: fetching the base64 Hello data URL dispatches to the synchronous
data: branch (no transport call) and yields a 200 response with body bytes
"Hello" and Content-Type text/plain; in general any matched data: URL yields
a 200 response whose Content-Type is the media type and whose body is the
base64 or utf8 decoding of the inline data. -/
theorem data_url_fetch :
    (dispatchURL dataHello = .dataScheme helloResp ∧
     helloResp.status = 200 ∧
     helloResp.headers.get "Content-Type" = some "text/plain" ∧
     helloResp.body = utf8Bytes "Hello") ∧
    (∀ url type isBase64 dataStr r, parseDataURL url = some (type, isBase64, dataStr) →
      dataURLResponse url = some r →
      r.status = 200 ∧ r.headers.get "Content-Type" = some type ∧
      r.body = (if isBase64 then base64Decode dataStr else utf8Bytes dataStr)) := by
  constructor
  · exact ⟨by decide, rfl, by decide, by decide⟩
  · intro url type isBase64 dataStr r hp hr
    unfold dataURLResponse at hr
    rw [hp] at hr
    injection hr with hr
    rw [← hr]
    refine ⟨rfl, ?_, rfl⟩
    simp [Headers.get, List.find?, sameName_self]

/-- C8 witness: the general part applied to the raw data URL data:a,b. -/
theorem data_url_fetch_witness :
    rawDataResp.status = 200 ∧ rawDataResp.headers.get "Content-Type" = some "a" ∧
    rawDataResp.body = utf8Bytes "b" := by
  have h := data_url_fetch.2 "data:a,b" "a" false "b" rawDataResp (by decide) (by decide)
  simpa using h

/-! ### Claim C2: redirect decision precedence -/

/-- C2 counterexample: a redirect response whose Location header is present
with an empty value is rejected with invalid-redirect, not followed, because
the source tests JS truthiness of res.headers.location rather than presence. -/
theorem empty_location_not_followed :
    nodeHeaderGet resEmptyLoc.headers "location" = some "" ∧
    handleRedirect reqFollow resEmptyLoc = .failure "invalid-redirect" := by
  constructor
  · decide
  · decide

/-- C2 amended: for a redirect-status response with mode not manual the
outcome is decided in precedence order — error mode gives no-redirect (even
when the counter is exhausted or Location missing); an exhausted counter
gives max-redirect; a missing or empty-valued Location header gives
invalid-redirect; otherwise the redirect is followed. -/
theorem redirect_decision_precedence (request : Request) (res : NodeResponse)
    (hred : isRedirect res.statusCode = true) (hman : request.redirect ≠ "manual") :
    (request.redirect = "error" → handleRedirect request res = .failure "no-redirect") ∧
    (request.redirect ≠ "error" → request.follow ≤ request.counter →
       handleRedirect request res = .failure "max-redirect") ∧
    (request.redirect ≠ "error" → request.counter < request.follow →
       truthyStr (nodeHeaderGet res.headers "location") = false →
       handleRedirect request res = .failure "invalid-redirect") ∧
    (request.redirect ≠ "error" → request.counter < request.follow →
       ∀ l, nodeHeaderGet res.headers "location" = some l → l ≠ "" →
       handleRedirect request res =
         .followNext (nextRequestState request res.statusCode)
           (resolve_url request.url l)) := by
  unfold handleRedirect
  have hm : (request.redirect != "manual") = true := by simpa using hman
  refine ⟨?_, ?_, ?_, ?_⟩
  · intro he
    simp [hred, hm, he]
  · intro he hcf
    have he2 : (request.redirect == "error") = false := by simpa using he
    simp [hred, hm, he2, hcf]
  · intro he hcf hloc
    have he2 : (request.redirect == "error") = false := by simpa using he
    have hnle : ¬request.follow ≤ request.counter := Nat.not_le.mpr hcf
    simp [hred, hm, he2, hnle, hloc]
  · intro he hcf l hl hlne
    have he2 : (request.redirect == "error") = false := by simpa using he
    have hnle : ¬request.follow ≤ request.counter := Nat.not_le.mpr hcf
    have htr : truthyStr (some l) = true := by simpa [truthyStr] using hlne
    simp [hred, hm, he2, hnle, hl, htr]

/-- C2 witness: a follow-mode request with spare hops follows the 302. -/
theorem redirect_decision_precedence_witness :
    handleRedirect reqFollow resLoc =
      .followNext (nextRequestState reqFollow resLoc.statusCode)
        (resolve_url reqFollow.url "http://b/") :=
  (redirect_decision_precedence reqFollow resLoc (by decide) (by decide)).2.2.2
    (by decide) (by decide) "http://b/" (by decide) (by decide)

/-! ### Claim C1: method and body rewrite on followed redirects -/

lemma parse_url_href (s : String) : (parse_url s).href = s := by
  unfold parse_url
  split <;> rfl

/-- A followed redirect always carries the rewritten request state and the
resolved location. -/
lemma handleRedirect_followNext {request : Request} {res : NodeResponse}
    {rw : Request} {nextUrl : String}
    (h : handleRedirect request res = .followNext rw nextUrl) :
    rw = nextRequestState request res.statusCode ∧
    nextUrl = resolve_url request.url ((nodeHeaderGet res.headers "location").getD "") := by
  unfold handleRedirect at h
  dsimp only at h
  split at h
  · split at h
    · exact RedirectOutcome.noConfusion h
    · split at h
      · exact RedirectOutcome.noConfusion h
      · split at h
        · exact RedirectOutcome.noConfusion h
        · injection h with h1 h2
          exact ⟨h1.symm, h2.symm⟩
  · exact RedirectOutcome.noConfusion h

/-- Building a request from a URL string and the options view of a body-less
prior request reproduces that request's fields. -/
lemma mkRequest_str_of_noBody (u : String) (rw : Request) (hb : rw.body = none) :
    mkRequest (.str u) rw.toInit = .ok (strInitRequest u rw) := by
  unfold strInitRequest
  rcases rw with ⟨u2, p2, m2, b2, h2, r2, f2, c2, ct2, a2, t2, s2⟩
  simp only at hb
  subst hb
  cases a2 <;>
    simp [mkRequest, rawMethodOf, bodySupplied, inputRequestOf, Request.toInit,
      format_url, parse_url_href, jsOrStr, jsOrNat]

/-- C1: for every followed redirect, a 303 status — or a 301/302 status on a
POST request — yields a next-hop request with method GET, no body and no
Content-Length header; every other followed status/method combination
preserves the method and body. -/
theorem redirect_method_body_rewrite (request : Request) (res : NodeResponse) (req2 : Request)
    (hm0 : request.method ≠ "") (hmU : upperStr request.method = request.method)
    (hnext : nextHopOf request res = some req2) :
    ((res.statusCode = 303 ∨ ((res.statusCode = 301 ∨ res.statusCode = 302) ∧
        request.method = "POST")) →
       req2.method = "GET" ∧ req2.body = none ∧
       req2.headers.has "Content-Length" = false) ∧
    (¬(res.statusCode = 303 ∨ ((res.statusCode = 301 ∨ res.statusCode = 302) ∧
        request.method = "POST")) →
       req2.method = request.method ∧ req2.body = request.body) := by
  unfold nextHopOf at hnext
  rcases hh : handleRedirect request res with k | ⟨rw, nextUrl⟩ | _
  · rw [hh] at hnext; exact Option.noConfusion hnext
  case followNext =>
    rw [hh] at hnext
    have hok : mkRequest (.str nextUrl) rw.toInit = .ok req2 := except_ok_of_toOption hnext
    have hrw := (handleRedirect_followNext hh).1
    subst hrw
    by_cases hC : (res.statusCode = 303 ∨ ((res.statusCode = 301 ∨ res.statusCode = 302) ∧
        request.method = "POST"))
    · refine ⟨fun _ => ?_, fun hnC => absurd hC hnC⟩
      unfold nextRequestState rewriteForRedirect at hok
      rw [if_pos hC] at hok
      rw [mkRequest_str_of_noBody _ _ rfl] at hok
      injection hok with hok
      rw [← hok]
      refine ⟨?_, rfl, ?_⟩
      · show upperStr (jsOrStr (some "GET") "GET") = "GET"
        decide
      · exact Headers.has_delete_of_same _ (by decide)
    · refine ⟨fun hC2 => absurd hC2 hC, fun _ => ?_⟩
      unfold nextRequestState rewriteForRedirect at hok
      rw [if_neg hC] at hok
      unfold mkRequest rawMethodOf bodySupplied inputRequestOf Request.toInit at hok
      dsimp only at hok
      split at hok
      · exact Except.noConfusion hok
      · injection hok with hok
        rw [← hok]
        constructor
        · show upperStr (jsOrStr (some request.method) (jsOrStr none "GET")) = request.method
          have h1 : jsOrStr (some request.method) (jsOrStr none "GET") = request.method := by
            simp [jsOrStr, hm0]
          rw [h1, hmU]
        · show (match request.body with
              | some b => some b
              | none => none) = request.body
          cases request.body <;> rfl
  · rw [hh] at hnext; exact Option.noConfusion hnext

/-- C1 witness: a 301 after POST is followed as GET with no body and no
Content-Length header. -/
theorem redirect_method_body_rewrite_witness :
    nextHopOf wPost res301 = some wPostNext ∧
    wPostNext.method = "GET" ∧ wPostNext.body = none ∧
    wPostNext.headers.has "Content-Length" = false := by
  have hn : nextHopOf wPost res301 = some wPostNext := by decide
  exact ⟨hn, (redirect_method_body_rewrite wPost res301 wPostNext (by decide) (by decide)
    hn).1 (Or.inr ⟨Or.inl rfl, rfl⟩)⟩

/-! ### Claim C7: Content-Length computation in the options builder -/

lemma contentLengthValueOf_noBody_postput (r : Request) (hb : r.body = none)
    (hm : upperStr r.method = "POST" ∨ upperStr r.method = "PUT") :
    contentLengthValueOf r = some "0" := by
  unfold contentLengthValueOf
  rcases hm with h | h <;> simp [hb, h]

lemma contentLengthValueOf_body_sized (r : Request) (b : BodySource) (n : Nat)
    (hb : r.body = some b) (hn : getTotalBytes b = some n) :
    contentLengthValueOf r = some (toString n) := by
  unfold contentLengthValueOf
  simp [hb, hn]

lemma contentLengthValueOf_noBody_other (r : Request) (hb : r.body = none)
    (hm : ¬(upperStr r.method = "POST" ∨ upperStr r.method = "PUT")) :
    contentLengthValueOf r = none := by
  push_neg at hm
  have h1 : (upperStr r.method == "POST") = false := by simpa using hm.1
  have h2 : (upperStr r.method == "PUT") = false := by simpa using hm.2
  unfold contentLengthValueOf
  simp [hb, h1, h2]

lemma contentLengthValueOf_body_unsized (r : Request) (b : BodySource)
    (hb : r.body = some b) (hn : getTotalBytes b = none) :
    contentLengthValueOf r = none := by
  unfold contentLengthValueOf
  simp [hb, hn]

lemma get_applyContentLength_self (h : Headers) (s : String) (hs : s ≠ "") :
    (applyContentLength h (some s)).get "Content-Length" = some s := by
  unfold applyContentLength
  simp only [if_neg hs]
  exact h.get_set_self _ _

/-- C7 counterexample: for a GET request with no body — a case in which the
claim says the produced options carry no Content-Length at all — a
caller-supplied Content-Length header survives into the produced options. -/
theorem content_length_not_cleared :
    (getNodeRequestOptions reqWithCL).toOption.map
        (fun o => o.headers.get "Content-Length") = some (some "5") := by
  decide

/-- C7 amended: the produced options carry Content-Length "0" when the
method is POST or PUT and the body is absent, the body's total byte size
when the body is present and sized, and otherwise exactly the caller's own
Content-Length header (in particular none when the caller set none). -/
theorem content_length_computation (r : Request) (opts : NodeOptions)
    (hok : getNodeRequestOptions r = .ok opts) :
    (r.body = none → (upperStr r.method = "POST" ∨ upperStr r.method = "PUT") →
       opts.headers.get "Content-Length" = some "0") ∧
    (∀ b n, r.body = some b → getTotalBytes b = some n →
       opts.headers.get "Content-Length" = some (toString n)) ∧
    (r.body = none → ¬(upperStr r.method = "POST" ∨ upperStr r.method = "PUT") →
       opts.headers.get "Content-Length" = r.headers.get "Content-Length") ∧
    (∀ b, r.body = some b → getTotalBytes b = none →
       opts.headers.get "Content-Length" = r.headers.get "Content-Length") := by
  have hh := getNodeRequestOptions_headers r opts hok
  rw [hh]
  rw [get_defaultConnection _ _ (by decide), get_applyAcceptEncoding _ _ (by decide),
      get_defaultUserAgent _ (by decide)]
  refine ⟨?_, ?_, ?_, ?_⟩
  · intro hb hm
    rw [contentLengthValueOf_noBody_postput r hb hm]
    exact get_applyContentLength_self _ _ (by decide)
  · intro b n hb hn
    rw [contentLengthValueOf_body_sized r b n hb hn]
    exact get_applyContentLength_self _ _ (toString_nat_ne_empty n)
  · intro hb hm
    rw [contentLengthValueOf_noBody_other r hb hm]
    unfold applyContentLength
    exact get_defaultAccept _ (by decide)
  · intro b hb hn
    rw [contentLengthValueOf_body_unsized r b hb hn]
    unfold applyContentLength
    exact get_defaultAccept _ (by decide)

/-- C7 amended witness: a body-less POST gets Content-Length 0. -/
theorem content_length_computation_witness :
    wPostOpts.headers.get "Content-Length" = some "0" :=
  (content_length_computation wPostReq wPostOpts
    (except_ok_of_toOption (by decide))).1 rfl (Or.inl (by decide))

/-! ### Claim C9: Accept-Encoding forced, other defaults only fill gaps -/

/-- C9: with compress on, the produced options carry Accept-Encoding exactly
gzip,deflate whatever the caller supplied, while caller-supplied Accept,
User-Agent and Connection headers are left untouched (those steps fire only
when the header is absent). -/
theorem accept_encoding_forced (r : Request) (opts : NodeOptions)
    (hc : r.compress = true) (hok : getNodeRequestOptions r = .ok opts) :
    opts.headers.get "Accept-Encoding" = some "gzip,deflate" ∧
    (r.headers.has "Accept" = true →
       opts.headers.get "Accept" = r.headers.get "Accept") ∧
    (r.headers.has "User-Agent" = true →
       opts.headers.get "User-Agent" = r.headers.get "User-Agent") ∧
    (r.headers.has "Connection" = true →
       opts.headers.get "Connection" = r.headers.get "Connection") := by
  have hh := getNodeRequestOptions_headers r opts hok
  rw [hh, hc]
  refine ⟨?_, ?_, ?_, ?_⟩
  · rw [get_defaultConnection _ _ (by decide)]
    simp [applyAcceptEncoding, Headers.get_set_self]
  · intro ha
    rw [get_defaultConnection _ _ (by decide), get_applyAcceptEncoding _ _ (by decide),
        get_defaultUserAgent _ (by decide), get_applyContentLength _ _ (by decide)]
    simp [defaultAccept, ha]
  · intro hu
    rw [get_defaultConnection _ _ (by decide), get_applyAcceptEncoding _ _ (by decide)]
    have hu2 : (applyContentLength (defaultAccept r.headers)
        (contentLengthValueOf r)).has "User-Agent" = true := by
      rw [has_applyContentLength _ _ (by decide), has_defaultAccept _ (by decide)]
      exact hu
    unfold defaultUserAgent
    rw [if_pos hu2]
    rw [get_applyContentLength _ _ (by decide), get_defaultAccept _ (by decide)]
  · intro hco
    have hc2 : (applyAcceptEncoding true (defaultUserAgent (applyContentLength
        (defaultAccept r.headers) (contentLengthValueOf r)))).has "Connection" = true := by
      rw [has_applyAcceptEncoding _ _ (by decide), has_defaultUserAgent _ (by decide),
          has_applyContentLength _ _ (by decide), has_defaultAccept _ (by decide)]
      exact hco
    unfold defaultConnection
    rw [hc2]
    simp only [Bool.not_true, Bool.false_and, Bool.false_eq_true, if_false]
    rw [get_applyAcceptEncoding _ _ (by decide), get_defaultUserAgent _ (by decide),
        get_applyContentLength _ _ (by decide), get_defaultAccept _ (by decide)]

/-- C9 witness: the caller's Accept-Encoding identity is overridden while
the caller's Accept survives. -/
theorem accept_encoding_forced_witness :
    wHdrOpts.headers.get "Accept-Encoding" = some "gzip,deflate" ∧
    wHdrOpts.headers.get "Accept" = wHdrReq.headers.get "Accept" := by
  have h := accept_encoding_forced wHdrReq wHdrOpts rfl (except_ok_of_toOption (by decide))
  exact ⟨h.1, h.2.1 (by decide)⟩

/-! ### Claim C3: counter increments once per hop and is bounded by follow -/

lemma getNodeRequestOptions_isOk (r : Request)
    (hp : r.parsedURL.protocol = some "http:" ∨ r.parsedURL.protocol = some "https:")
    (hh : truthyStr r.parsedURL.hostname = true) :
    ∃ o, getNodeRequestOptions r = .ok o := by
  have h1 : truthyStr r.parsedURL.protocol = true := by
    rcases hp with h | h <;> simp [h, truthyStr]
  have h2 : (r.parsedURL.protocol == some "http:"
      || r.parsedURL.protocol == some "https:") = true := by
    rcases hp with h | h <;> simp [h]
  unfold getNodeRequestOptions
  dsimp only
  simp [h1, h2, hh]

lemma resolve_url_absolute (base l : String)
    (h : (breakOnSub "://".data l.data).isSome = true) :
    resolve_url base l = l := by
  unfold resolve_url
  simp [h]

lemma nextRequestState_counter (request : Request) (s : Nat) :
    (nextRequestState request s).counter = request.counter + 1 := by
  unfold nextRequestState rewriteForRedirect
  split <;> rfl

lemma nextRequestState_redirect (request : Request) (s : Nat) :
    (nextRequestState request s).redirect = request.redirect := by
  unfold nextRequestState rewriteForRedirect
  split <;> rfl

lemma nextRequestState_follow (request : Request) (s : Nat) :
    (nextRequestState request s).follow = request.follow := by
  unfold nextRequestState rewriteForRedirect
  split <;> rfl

lemma nextRequestState_body_pos (request : Request) (s : Nat)
    (hC : s = 303 ∨ ((s = 301 ∨ s = 302) ∧ request.method = "POST")) :
    (nextRequestState request s).body = none := by
  unfold nextRequestState rewriteForRedirect
  rw [if_pos hC]

lemma nextRequestState_body_neg (request : Request) (s : Nat)
    (hC : ¬(s = 303 ∨ ((s = 301 ∨ s = 302) ∧ request.method = "POST"))) :
    (nextRequestState request s).body = request.body ∧
    (nextRequestState request s).method = request.method := by
  unfold nextRequestState rewriteForRedirect
  rw [if_neg hC]
  exact ⟨rfl, rfl⟩

lemma bodySupplied_str_toInit (u : String) (r : Request) :
    bodySupplied (.str u) r.toInit = r.body.isSome := by
  simp [bodySupplied, inputRequestOf, Request.toInit]

lemma rawMethodOf_str_toInit (u : String) (r : Request) :
    rawMethodOf (.str u) r.toInit = jsOrStr (some r.method) "GET" := rfl

/-- Whenever the GET/HEAD-with-body guard does not fire, building a request
from a URL string and a prior request's options view succeeds. -/
lemma mkRequest_str_ok (u : String) (rw : Request)
    (hg : ¬(rw.body.isSome = true ∧ (jsOrStr (some rw.method) "GET" = "GET"
        ∨ jsOrStr (some rw.method) "GET" = "HEAD"))) :
    ∃ req2, mkRequest (.str u) rw.toInit = .ok req2 := by
  have hgb : (bodySupplied (.str u) rw.toInit &&
      (rawMethodOf (.str u) rw.toInit == "GET"
        || rawMethodOf (.str u) rw.toInit == "HEAD")) = false := by
    rw [bodySupplied_str_toInit, rawMethodOf_str_toInit]
    rcases Bool.eq_false_or_eq_true rw.body.isSome with hbs | hbs
    · push_neg at hg
      obtain ⟨h1, h2⟩ := hg hbs
      simp [hbs, h1, h2]
    · simp [hbs]
  unfold mkRequest
  dsimp only
  rw [if_neg (by simp [hgb])]
  exact ⟨_, rfl⟩

/-- The fields of a successfully built request in terms of the prior
request's options view, independent of whether a body rides along. -/
lemma mkRequest_str_ok_fields {u : String} {rw req2 : Request}
    (hok : mkRequest (.str u) rw.toInit = .ok req2) :
    req2.counter = jsOrNat (some rw.counter) 0 ∧
    req2.redirect = jsOrStr (some rw.redirect) "follow" ∧
    req2.follow = rw.follow ∧
    req2.parsedURL = parse_url u ∧
    req2.body = rw.body ∧
    req2.method = upperStr (jsOrStr (some rw.method) "GET") := by
  unfold mkRequest rawMethodOf bodySupplied inputRequestOf Request.toInit at hok
  dsimp only at hok
  split at hok
  · exact Except.noConfusion hok
  · injection hok with hok
    rw [← hok]
    refine ⟨rfl, rfl, rfl, rfl, ?_, rfl⟩
    show (match rw.body with
        | some b => some b
        | none => none) = rw.body
    cases rw.body <;> rfl

lemma handleRedirect_max (request : Request) (res : NodeResponse)
    (hred : isRedirect res.statusCode = true) (hfm : request.redirect = "follow")
    (hcf : request.follow ≤ request.counter) :
    handleRedirect request res = .failure "max-redirect" := by
  have h1 : (("follow" : String) != "manual") = true := by decide
  have h2 : (("follow" : String) == "error") = false := by decide
  unfold handleRedirect
  simp [hred, hfm, h1, h2, hcf]

lemma handleRedirect_follows (request : Request) (res : NodeResponse) (l : String)
    (hred : isRedirect res.statusCode = true) (hfm : request.redirect = "follow")
    (hcf : request.counter < request.follow)
    (hl : nodeHeaderGet res.headers "location" = some l) (hlne : l ≠ "") :
    handleRedirect request res =
      .followNext (nextRequestState request res.statusCode)
        (resolve_url request.url l) := by
  have h1 : (("follow" : String) != "manual") = true := by decide
  have h2 : (("follow" : String) == "error") = false := by decide
  have hnle : ¬request.follow ≤ request.counter := Nat.not_le.mpr hcf
  have htr : truthyStr (some l) = true := by simpa [truthyStr] using hlne
  unfold handleRedirect
  simp [hred, hfm, h1, h2, hnle, hl, htr]

/-- Invariant of the follow-mode fetch chain: each followed hop consumes one
response and increments the counter by exactly one; the hop that would push
the counter past follow fails with max-redirect instead. -/
lemma fetchChain_follow_count : ∀ (resps : List NodeResponse) (request : Request),
    request.redirect = "follow" → bodyMethodOk request →
    (request.parsedURL.protocol = some "http:"
      ∨ request.parsedURL.protocol = some "https:") →
    truthyStr request.parsedURL.hostname = true →
    request.counter ≤ request.follow →
    (∀ res ∈ resps, goodRedirectRes res) →
    (request.counter + resps.length ≤ request.follow →
        ∃ req2, fetchChain request resps = .needsTransport req2 ∧
          req2.counter = request.counter + resps.length) ∧
    (request.counter + resps.length = request.follow + 1 →
        fetchChain request resps = .failure "max-redirect") := by
  intro resps
  induction resps with
  | nil =>
    intro request hfm _ hp hh hcf _
    obtain ⟨o, ho⟩ := getNodeRequestOptions_isOk request hp hh
    constructor
    · intro _
      exact ⟨request, by simp [fetchChain, ho], by simp⟩
    · intro habs
      simp at habs
      omega
  | cons res rest ih =>
    intro request hfm hP hp hh hcf hres
    obtain ⟨hred, l, hl, hlne, hsub, hlp, hlh⟩ := hres res (List.mem_cons_self _ _)
    obtain ⟨o, ho⟩ := getNodeRequestOptions_isOk request hp hh
    by_cases hlt : request.counter < request.follow
    · have hstep := handleRedirect_follows request res l hred hfm hlt hl hlne
      have hguard : ¬((nextRequestState request res.statusCode).body.isSome = true ∧
          (jsOrStr (some (nextRequestState request res.statusCode).method) "GET" = "GET"
            ∨ jsOrStr (some (nextRequestState request res.statusCode).method) "GET"
                = "HEAD")) := by
        by_cases hC : res.statusCode = 303
            ∨ ((res.statusCode = 301 ∨ res.statusCode = 302) ∧ request.method = "POST")
        · intro hcontra
          have hbs := hcontra.1
          rw [nextRequestState_body_pos _ _ hC] at hbs
          simp at hbs
        · intro hcontra
          obtain ⟨hbs, hgm⟩ := hcontra
          obtain ⟨hbe, hme⟩ := nextRequestState_body_neg request res.statusCode hC
          rw [hbe] at hbs
          rw [hme] at hgm
          obtain ⟨b, hb2⟩ := Option.isSome_iff_exists.mp hbs
          obtain ⟨hm1, hm2, hm3, hm4⟩ := hP b hb2
          rw [show jsOrStr (some request.method) "GET" = request.method by
            simp [jsOrStr, hm1]] at hgm
          rcases hgm with h | h
          · exact hm3 h
          · exact hm4 h
      obtain ⟨req2, hmk⟩ := mkRequest_str_ok l _ hguard
      obtain ⟨hf_c, hf_r, hf_f, hf_p, hf_b, hf_m⟩ := mkRequest_str_ok_fields hmk
      have hcalc : fetchChain request (res :: rest) = fetchChain req2 rest := by
        simp only [fetchChain]
        rw [ho, hstep, resolve_url_absolute _ _ hsub]
        dsimp only
        rw [hmk]
      have hRr : req2.redirect = "follow" := by
        rw [hf_r, nextRequestState_redirect, hfm]
        decide
      have hRc : req2.counter = request.counter + 1 := by
        rw [hf_c, nextRequestState_counter]
        simp [jsOrNat]
      have hRf : req2.follow = request.follow := by
        rw [hf_f, nextRequestState_follow]
      have hRp : req2.parsedURL.protocol = some "http:"
          ∨ req2.parsedURL.protocol = some "https:" := by
        rw [hf_p]
        exact hlp
      have hRh : truthyStr req2.parsedURL.hostname = true := by
        rw [hf_p]
        exact hlh
      have hRP : bodyMethodOk req2 := by
        intro b hb2
        rw [hf_b] at hb2
        by_cases hC : res.statusCode = 303
            ∨ ((res.statusCode = 301 ∨ res.statusCode = 302) ∧ request.method = "POST")
        · rw [nextRequestState_body_pos _ _ hC] at hb2
          exact Option.noConfusion hb2
        · obtain ⟨hbe, hme⟩ := nextRequestState_body_neg request res.statusCode hC
          rw [hbe] at hb2
          obtain ⟨hm1, hm2, hm3, hm4⟩ := hP b hb2
          have hmeq : req2.method = request.method := by
            rw [hf_m, hme, show jsOrStr (some request.method) "GET" = request.method by
              simp [jsOrStr, hm1], hm2]
          rw [hmeq]
          exact ⟨hm1, hm2, hm3, hm4⟩
      have hRcf : req2.counter ≤ req2.follow := by
        rw [hRc, hRf]
        omega
      have hrest : ∀ x ∈ rest, goodRedirectRes x :=
        fun x hx => hres x (List.mem_cons_of_mem _ hx)
      have IH := ih req2 hRr hRP hRp hRh hRcf hrest
      constructor
      · intro hle
        simp only [List.length_cons] at hle
        obtain ⟨req3, h3, hc3⟩ := IH.1 (by rw [hRc, hRf]; omega)
        refine ⟨req3, by rw [hcalc]; exact h3, ?_⟩
        rw [hc3, hRc]
        simp only [List.length_cons]
        omega
      · intro heq
        simp only [List.length_cons] at heq
        rw [hcalc]
        exact IH.2 (by rw [hRc, hRf]; omega)
    · have hge : request.follow ≤ request.counter := Nat.not_lt.mp hlt
      have hstep := handleRedirect_max request res hred hfm hge
      constructor
      · intro hle
        simp only [List.length_cons] at hle
        omega
      · intro _
        simp [fetchChain, ho, hstep]

/-- C3: starting with counter 0 in follow mode, after N followed redirects
the counter equals N (for N within the follow limit, the chain is ready to
issue the next transport call with counter N); with follow = N, presenting
an (N+1)-th redirect response makes the chain fail with max-redirect rather
than follow it. -/
theorem redirect_counter_bound (request : Request) (resps : List NodeResponse) (n : Nat)
    (hfm : request.redirect = "follow") (hbm : bodyMethodOk request)
    (hc0 : request.counter = 0)
    (hp : request.parsedURL.protocol = some "http:"
        ∨ request.parsedURL.protocol = some "https:")
    (hh : truthyStr request.parsedURL.hostname = true)
    (hlen : resps.length = n)
    (hres : ∀ res ∈ resps, goodRedirectRes res) :
    (n ≤ request.follow →
       ∃ req2, fetchChain request resps = .needsTransport req2 ∧ req2.counter = n) ∧
    (n = request.follow + 1 → fetchChain request resps = .failure "max-redirect") := by
  have h := fetchChain_follow_count resps request hfm hbm hp hh (by omega) hres
  rw [hc0, hlen] at h
  simpa using h

/-- C3 witness: a body-carrying POST chain with follow = 1 — the second 307
response fails with max-redirect. -/
theorem redirect_counter_bound_witness :
    fetchChain reqHop [resHop, resHop] = .failure "max-redirect" := by
  have hgood : ∀ res ∈ [resHop, resHop], goodRedirectRes res := by
    intro res hres
    have hr : res = resHop := by
      simp only [List.mem_cons, List.mem_singleton, List.not_mem_nil, or_false] at hres
      rcases hres with h | h <;> exact h
    subst hr
    exact ⟨by decide, "http://h/x", by decide, by decide, by decide,
      Or.inl (by decide), by decide⟩
  have hbm : bodyMethodOk reqHop :=
    fun b _ => ⟨by decide, by decide, by decide, by decide⟩
  exact (redirect_counter_bound reqHop [resHop, resHop] 2 rfl hbm rfl
    (Or.inl (by decide)) (by decide) rfl hgood).2 rfl

end WindowFetch
